import Mathlib

/-!
Verification development for the YouTube-dubbing extension
(`extension/content.js`, `extension/popup.js`, plus the two earlier
iterations of the same `DubbingManager` class kept in the repository).

The embedding is shallow: JavaScript numbers holding times, durations,
volumes and rates are modelled as rationals (`ℚ`); the mutable fields of
the `DubbingManager` object become a record `DM` threaded explicitly; a
network call becomes an `Option` argument carrying the response (`none`
models the `fetch` rejecting, which the source swallows in its `catch`
block).  DOM objects (the `<video>` element, the overlay, the
`HTMLAudioElement`) are outside the embedding; the only fact about the
audio player the selector logic reads — whether a clip is currently
sounding — is kept as the boolean `currentPlaying`, and the hand-off of a
clip to the audio controller is reified as an action value returned next
to the updated state.
-/

/-- One subtitle segment as returned by `GET /subtitles`
(content.js `this.subtitles` elements, fields `start`, `end`, `text`).
The JS field `end` is spelled `endSec` because `end` is a Lean keyword. -/
structure Subtitle where
  start : ℚ
  endSec : ℚ
  text : String
deriving Repr, DecidableEq

/-- A synthesized clip as built in `sendBatchToServer` from one response
item: `{id, url, start, end}` (content.js lines 357-362).  The opaque
object URL is irrelevant to the scheduling logic and is not modelled;
the JS string id is kept as the parsed numeric id (`parseInt(item.id)`),
which is how every comparison in the source uses it. -/
structure AudioData where
  id : Nat
  start : ℚ
  endSec : ℚ
deriving Repr, DecidableEq

/-- One item of a `POST /synthesize` response (`data.results` elements,
content.js line 354): `{id, audio_base64, start_time, end_time}` with the
audio payload elided. -/
structure SynthResult where
  id : Nat
  start : ℚ
  endSec : ℚ
deriving Repr, DecidableEq

/-- Default subtitle used with `List.getD` when stating indexed facts. -/
def dfltSub : Subtitle := ⟨0, 0, ""⟩

/-- The mutable state of `DubbingManager` (content.js constructor,
lines 1-34), restricted to the fields the synchronization logic reads or
writes.  `audioCache` is the JS `Map` modelled as an association list
(`cacheSet`/`cacheGet` below give it map semantics); `processedIds` is
the JS `Set` as a duplicate-free list; `currentPlaying` stands for
"`currentAudioPlayer` is non-null and neither ended nor paused". -/
structure DM where
  audioQueue : List AudioData
  subtitles : List Subtitle
  isBuffering : Bool
  currentPlaying : Bool
  processedIds : List Nat
  nextFetchIndex : Nat
  audioCache : List (Nat × AudioData)
  isDubbing : Bool
  volume : ℚ
  currentVideoId : Option String
deriving Repr, DecidableEq

/-- Insertion into the `processedIds` set (`Set.add`): a no-op when the
id is already present. -/
def insertId (j : Nat) (l : List Nat) : List Nat :=
  if j ∈ l then l else l ++ [j]

/-- Embedding of `Map.get` on the association-list model of `audioCache`
(content.js `this.audioCache.get(...)`). -/
def cacheGet (cache : List (Nat × AudioData)) (j : Nat) : Option AudioData :=
  (cache.find? (fun p => p.1 == j)).map Prod.snd

/-- Embedding of `Map.set` on the association-list model of `audioCache`
(content.js `this.audioCache.set(item.id, audioData)`): the new binding
shadows any previous binding of the same key.  JS `Map` keeps insertion
order, which no lookup in the source depends on, so the binding is
simply put in front. -/
def cacheSet (j : Nat) (a : AudioData) (cache : List (Nat × AudioData)) :
    List (Nat × AudioData) :=
  (j, a) :: cache.filter (fun p => p.1 != j)

/-- Stable insertion used by `sortBy`. -/
def insertBy {α : Type} (le : α → α → Bool) (a : α) : List α → List α
  | [] => [a]
  | b :: l => if le a b then a :: b :: l else b :: insertBy le a l

/-- Stable comparator sort modelling `Array.prototype.sort` with a
two-argument comparator (JS sorts are stable; so is insertion sort). -/
def sortBy {α : Type} (le : α → α → Bool) : List α → List α
  | [] => []
  | a :: l => insertBy le a (sortBy le l)

/-- Embedding of `this.audioQueue.sort((a, b) => a.start - b.start)`
(content.js lines 372 and 558). -/
def sortByStart (q : List AudioData) : List AudioData :=
  sortBy (fun a b => decide (a.start ≤ b.start)) q

/-- Embedding of `this.audioQueue.sort((a, b) => parseInt(a.id) - parseInt(b.id))`
(content.js line 417). -/
def sortById (q : List AudioData) : List AudioData :=
  sortBy (fun a b => decide (a.id ≤ b.id)) q

/-- Embedding of `Array.prototype.findIndex` scanning with a running index; returns
`none` where JS returns `-1`. -/
def findIndexAux (p : Subtitle → Bool) : List Subtitle → Nat → Option Nat
  | [], _ => none
  | s :: rest, i => if p s then some i else findIndexAux p rest (i + 1)

/-- The index list `newIndex, newIndex+1, ...` of length `k` walked by
the rebuild loop in `onSeek`. -/
def idxRange : Nat → Nat → List Nat
  | _, 0 => []
  | lo, k + 1 => lo :: idxRange (lo + 1) k

/-- Embedding of `resetForNewVideo` (content.js lines 57-88): stops the sounding
clip and clears every cache, queue, set and cursor of the session.
The DOM effects (unmuting the video, hiding the overlay) are outside
the embedding. -/
def resetForNewVideo (dm : DM) : DM :=
  { dm with
    currentPlaying := false
    audioQueue := []
    audioCache := []
    processedIds := []
    subtitles := []
    nextFetchIndex := 0
    isDubbing := false
    isBuffering := false
    currentVideoId := none }

/-- The success branch of `sendBatchToServer` applied to one response
item (content.js lines 354-370): build the clip, push it onto the queue,
add its parsed id to `processedIds`, and store it in the persistent
cache. -/
def applyResultItem (dm : DM) (item : SynthResult) : DM :=
  let a : AudioData := ⟨item.id, item.start, item.endSec⟩
  { dm with
    audioQueue := dm.audioQueue ++ [a]
    processedIds := insertId item.id dm.processedIds
    audioCache := cacheSet item.id a dm.audioCache }

/-- Embedding of `sendBatchToServer` (content.js lines 342-378).  The network
outcome is the `response` argument: `some results` is a parsed JSON
reply, whose items are folded into the state in order and the queue
re-sorted by `start`; `none` is a rejected `fetch`, which the `catch`
block logs and swallows, leaving the state untouched.  The source
applies a successful response unconditionally — there is no check of
`currentVideoId`, `isDubbing`, or any session generation. -/
def sendBatchToServer (dm : DM) (response : Option (List SynthResult)) : DM :=
  match response with
  | none => dm
  | some results =>
      let dm' := results.foldl applyResultItem dm
      { dm' with audioQueue := sortByStart dm'.audioQueue }

/-- The batch-assembly loop of `bufferBatch` (content.js lines 241-255):
`while (batch.length < count && i < subtitles.length)` push the pair of
the running index and `subtitles[i]` unless the index is in
`processedIds`.  `pending` is `subtitles.drop i`; `room` is
`count - batch.length`.  Returns the batch together with the final value
of `i` (the source stores it into `nextFetchIndex`). -/
def bufferBatchGo (processed : List Nat) :
    Nat → List Subtitle → Nat → List (Nat × Subtitle) × Nat
  | i, [], _ => ([], i)
  | i, _ :: _, 0 => ([], i)
  | i, s :: rest, room + 1 =>
      if i ∈ processed then bufferBatchGo processed (i + 1) rest (room + 1)
      else
        let (b, i') := bufferBatchGo processed (i + 1) rest room
        ((i, s) :: b, i')

/-- Embedding of `bufferBatch` (content.js lines 238-261).  Returns the new state
and whether a network request was issued.  Note the source sets
`nextFetchIndex = i` after `await sendBatchToServer(batch)` returns
even when the call failed, because the failure is swallowed inside
`sendBatchToServer` itself. -/
def bufferBatch (dm : DM) (startIndex count : Nat)
    (response : Option (List SynthResult)) : DM × Bool :=
  if dm.subtitles.length ≤ startIndex then (dm, false)
  else
    let r := bufferBatchGo dm.processedIds startIndex (dm.subtitles.drop startIndex) count
    if r.1.isEmpty then (dm, false)
    else ({ sendBatchToServer dm response with nextFetchIndex := r.2 }, true)

/-- The batch-assembly loop of `bufferUntilSafe` (content.js lines
306-326): same as `bufferBatchGo` but additionally bounded by the
cumulative slot duration of the ids pushed so far
(`durationBuffered < MAX_DURATION` with `MAX_DURATION = 30`), with the
batch-size bound fixed at `MAX_BATCH_SIZE = 10` by the caller. -/
def bufferUntilSafeGo (processed : List Nat) :
    Nat → List Subtitle → ℚ → Nat → List (Nat × Subtitle) × Nat
  | i, [], _, _ => ([], i)
  | i, s :: rest, dur, room =>
      if dur < 30 ∧ 0 < room then
        if i ∈ processed then bufferUntilSafeGo processed (i + 1) rest dur room
        else
          let (b, i') :=
            bufferUntilSafeGo processed (i + 1) rest (dur + (s.endSec - s.start)) (room - 1)
          ((i, s) :: b, i')
      else ([], i)

/-- Embedding of `bufferUntilSafe` (content.js lines 300-340).  Guarded by the busy
flag: an early return when `isBuffering` is already set (or the start
index is past the subtitle list).  The flag is set for the duration of
the call and cleared before returning, so the net state carries it
unchanged; the video-resume side effect at the end is outside the
embedding.  Returns the new state and whether a request was issued. -/
def bufferUntilSafe (dm : DM) (startIndex : Nat)
    (response : Option (List SynthResult)) : DM × Bool :=
  if dm.isBuffering = true ∨ dm.subtitles.length ≤ startIndex then (dm, false)
  else
    let r := bufferUntilSafeGo dm.processedIds startIndex (dm.subtitles.drop startIndex) 0 10
    if r.1.isEmpty then (dm, false)
    else ({ sendBatchToServer dm response with nextFetchIndex := r.2 }, true)

/-- One tick of the interval installed by `startBackgroundBuffering`
(content.js lines 263-282): when the session is still dubbing, some
subtitles are unprocessed, and the busy flag is clear, run
`bufferBatch(nextFetchIndex, 10)` with the flag held for its duration
(set just before, cleared just after, hence unchanged in the net
state). -/
def backgroundBufferTick (dm : DM) (response : Option (List SynthResult)) :
    DM × Bool :=
  if dm.isDubbing = false then (dm, false)
  else if 0 < dm.subtitles.length - dm.processedIds.length ∧ dm.isBuffering = false then
    bufferBatch dm dm.nextFetchIndex 10 response
  else (dm, false)

/-- The target-index computation of `onSeek` (content.js lines
535-540): `findIndex(s => s.end > currentTime)`, then the fallback
`if (currentTime < (subtitles[0]?.start || 0)) newIndex = 0; else
return;` — `none` models the early `return`. -/
def findNewIndex (subs : List Subtitle) (t : ℚ) : Option Nat :=
  match findIndexAux (fun s => decide (t < s.endSec)) subs 0 with
  | some i => some i
  | none =>
      if t < (match subs with | [] => 0 | s :: _ => s.start) then some 0
      else none

/-- Embedding of `onSeek` (content.js lines 525-575), synchronous part: stop the
sounding clip; locate the target index; when one exists, rebuild the
queue from the cache hits among the next 20 indices, sort it by
`start`, and reset `nextFetchIndex` to the target.  When no target
exists the handler returns early, leaving the queue as it was.  The
trailing `bufferUntilSafe` calls are `async` and not awaited; they are
modelled as separate subsequent `bufferUntilSafe` steps. -/
def onSeek (dm : DM) (t : ℚ) : DM :=
  let dm' := { dm with currentPlaying := false }
  match findNewIndex dm'.subtitles t with
  | none => dm'
  | some newIndex =>
      let hi := min (newIndex + 20) dm'.subtitles.length
      let hits := (idxRange newIndex (hi - newIndex)).filterMap
        (fun j => cacheGet dm'.audioCache j)
      { dm' with
        audioQueue := sortByStart hits
        nextFetchIndex := newIndex }

/-- The hand-off decision of the current Playback Selector, reified:
either nothing is played on this tick, or one clip is handed to the
audio controller together with the window `maxDuration` it is given. -/
inductive PlayAction where
  | idle : PlayAction
  | play (clip : AudioData) (maxDuration : ℚ) : PlayAction
deriving Repr, DecidableEq

/-- Embedding of `playMatchingAudio` (content.js lines 410-438): do nothing while a
clip is sounding; otherwise sort the queue by id and look at its head.
The head is played as soon as `currentTime >= start - 0.3` — the
source comment reads "Play if: we're within the segment's time window
OR we're past it (catch up)" — with the remaining window
`Math.max(end - currentTime, 0.5)`.  There is no branch that discards
a clip without playing it. -/
def playMatchingAudio (dm : DM) (t : ℚ) : DM × PlayAction :=
  if dm.currentPlaying then (dm, .idle)
  else
    let q := sortById dm.audioQueue
    match q with
    | [] => ({ dm with audioQueue := q }, .idle)
    | next :: rest =>
        if next.start - 3/10 ≤ t then
          ({ dm with audioQueue := rest, currentPlaying := true },
           .play next (max (next.endSec - t) (1/2)))
        else ({ dm with audioQueue := q }, .idle)

/-- The selection decision of the first iteration's `onTimeUpdate`
(the earlier `DubbingManager`, lines 248-257 of that file): play the
head, skip the head without playing, or do nothing. -/
inductive SelectAction where
  | idle : SelectAction
  | play (clip : AudioData) : SelectAction
  | skip (clip : AudioData) : SelectAction
deriving Repr, DecidableEq

/-- The head-of-queue selection in the first iteration's `onTimeUpdate`:
`if (currentTime >= next.start - 0.2 && currentTime < next.end)` play
and shift; `else if (currentTime > next.end)` warn and shift without
playing (the catch-up drop); else leave the queue alone. -/
def onTimeUpdateSelect (queue : List AudioData) (t : ℚ) :
    List AudioData × SelectAction :=
  match queue with
  | [] => ([], .idle)
  | next :: rest =>
      if next.start - 2/10 ≤ t ∧ t < next.endSec then (rest, .play next)
      else if next.endSec < t then (rest, .skip next)
      else (next :: rest, .idle)

/-- The `onloadedmetadata` rate computation of `playAudioWithTiming`
(content.js lines 451-458): speed up only when the intrinsic duration
exceeds the window and the window exceeds the 0.3 s threshold, capping
the ratio at 2.0; otherwise the element keeps its default rate 1. -/
def computePlaybackRate (audioDuration maxDuration : ℚ) : ℚ :=
  if maxDuration < audioDuration ∧ 3/10 < maxDuration then
    min (audioDuration / maxDuration) 2
  else 1

/-- The gain `playAudioWithTiming` puts on a fresh audio element
(content.js line 448): `Math.min(this.volume, 1.0)`.  The same formula
is applied to the live player by the volume-update message handler
(content.js line 116). -/
def clipGain (volume : ℚ) : ℚ := min volume 1

/-- The `start_dubbing` handler's volume assignment
(content.js line 109): `this.volume = request.volume || 1.0` — a
requested volume of exactly 0 is falsy in JS, so it is replaced by the
default 1.0. -/
def startDubbingVolume (requested : ℚ) : ℚ :=
  if requested = 0 then 1 else requested

/-- The popup's dub-volume slider value (an integer percentage, range
0-200 in the floating control and the popup) converted as
`e.target.value / 100` before being sent in the volume-update message
(popup.js lines 93-103). -/
def popupSliderVolume (sliderPercent : Nat) : ℚ := (sliderPercent : ℚ) / 100

/-- Abstraction of the event-loop interleavings that matter for the
single-in-flight-batch discipline.  `isBuffering` is the busy flag;
`preFlight` records a synthesis request issued by the pre-buffer loop
of `startProcess` (content.js lines 220-226) that has not yet
resolved; `guardedFlight` records one issued through `bufferUntilSafe`
(content.js lines 300-331).  Each `await fetch` is a suspension point
of the cooperative event loop, so other handlers run between an issue
and its completion. -/
structure SchedState where
  isBuffering : Bool
  preFlight : Bool
  guardedFlight : Bool
deriving Repr, DecidableEq

/-- Number of outstanding synthesis batch requests. -/
def outstanding (s : SchedState) : Nat :=
  (if s.preFlight then 1 else 0) + (if s.guardedFlight then 1 else 0)

/-- Event-loop steps of the scheduler.  `preIssue` is the pre-buffer
loop awaiting `bufferBatch → sendBatchToServer → fetch`: the loop
neither checks nor sets `isBuffering` (content.js lines 220-226 and
238-261).  `guardIssue` is `bufferUntilSafe` getting past its guard —
it requires the flag clear and sets it (content.js lines 301-302); the
seek handler can invoke it while the video is paused during
pre-buffering (the `seeking` listener is installed before
`startProcess` runs).  Completions resolve the corresponding request,
`bufferUntilSafe` clearing the flag on its way out (line 333). -/
inductive SchedStep : SchedState → SchedState → Prop where
  | preIssue (s : SchedState) (h : s.preFlight = false) :
      SchedStep s { s with preFlight := true }
  | preComplete (s : SchedState) (h : s.preFlight = true) :
      SchedStep s { s with preFlight := false }
  | guardIssue (s : SchedState) (h1 : s.isBuffering = false)
      (h2 : s.guardedFlight = false) :
      SchedStep s { s with isBuffering := true, guardedFlight := true }
  | guardComplete (s : SchedState) (h : s.guardedFlight = true) :
      SchedStep s { s with isBuffering := false, guardedFlight := false }

/-- States reachable from the initial quiescent scheduler state. -/
inductive SchedReachable : SchedState → Prop where
  | init : SchedReachable ⟨false, false, false⟩
  | step {s t : SchedState} : SchedReachable s → SchedStep s t → SchedReachable t

/-! ### Helper lemmas -/

theorem mem_insertBy {α : Type} (le : α → α → Bool) (a x : α) (l : List α) :
    x ∈ insertBy le a l ↔ x = a ∨ x ∈ l := by
  induction l with
  | nil => simp [insertBy]
  | cons b l ih =>
      simp only [insertBy]
      split
      · simp
      · simp only [List.mem_cons, ih]
        tauto

theorem mem_sortBy {α : Type} (le : α → α → Bool) (x : α) (l : List α) :
    x ∈ sortBy le l ↔ x ∈ l := by
  induction l with
  | nil => simp [sortBy]
  | cons a l ih => simp [sortBy, mem_insertBy, ih]

theorem mem_idxRange (j : Nat) : ∀ (lo k : Nat), j ∈ idxRange lo k → lo ≤ j ∧ j < lo + k := by
  intro lo k
  induction k generalizing lo with
  | zero => simp [idxRange]
  | succ k ih =>
      intro h
      simp only [idxRange, List.mem_cons] at h
      rcases h with rfl | h
      · omega
      · have := ih (lo + 1) h
        omega

theorem findIndexAux_some_spec (p : Subtitle → Bool) (l : List Subtitle) :
    ∀ (i j : Nat), findIndexAux p l i = some j →
      i ≤ j ∧ j - i < l.length ∧ p (l.getD (j - i) dfltSub) = true ∧
        ∀ m < j - i, p (l.getD m dfltSub) = false := by
  induction l with
  | nil => intro i j h; simp [findIndexAux] at h
  | cons s rest ih =>
      intro i j h
      simp only [findIndexAux] at h
      by_cases hp : p s = true
      · rw [if_pos hp] at h
        have hji : j = i := by simpa using h.symm
        subst hji
        refine ⟨le_refl j, by simp, by simpa using hp, ?_⟩
        intro m hm
        omega
      · rw [if_neg hp] at h
        obtain ⟨h1, h2, h3, h4⟩ := ih (i + 1) j h
        refine ⟨by omega, by simp; omega, ?_, ?_⟩
        · have : j - i = (j - (i + 1)) + 1 := by omega
          rw [this]
          simpa using h3
        · intro m hm
          cases m with
          | zero => simpa using eq_false_of_ne_true hp
          | succ m' =>
              have : m' < j - (i + 1) := by omega
              simpa using h4 m' this

theorem findIndexAux_none_of_all (p : Subtitle → Bool) (l : List Subtitle) :
    ∀ (i : Nat), (∀ s ∈ l, p s = false) → findIndexAux p l i = none := by
  induction l with
  | nil => intro i _; simp [findIndexAux]
  | cons s rest ih =>
      intro i h
      simp only [findIndexAux]
      rw [if_neg (by simp [h s (by simp)])]
      exact ih (i + 1) (fun x hx => h x (by simp [hx]))

theorem find_key_filter_ne (c : List (Nat × AudioData)) (j k : Nat) (hjk : j ≠ k) :
    (c.filter (fun p => p.1 != k)).find? (fun p => p.1 == j) =
      c.find? (fun p => p.1 == j) := by
  induction c with
  | nil => simp
  | cons p c ih =>
      rw [List.filter_cons]
      by_cases hk : p.1 = k
      · rw [if_neg (by simp [hk])]
        rw [List.find?_cons_of_neg _ (by simp only [hk, beq_iff_eq]; omega)]
        exact ih
      · rw [if_pos (by simp [hk])]
        by_cases hj : p.1 = j
        · rw [List.find?_cons_of_pos _ (by simp [hj]),
            List.find?_cons_of_pos _ (by simp [hj])]
        · rw [List.find?_cons_of_neg _ (by simp [hj]),
            List.find?_cons_of_neg _ (by simp [hj])]
          exact ih

theorem cacheGet_cacheSet (c : List (Nat × AudioData)) (k j : Nat) (a : AudioData) :
    cacheGet (cacheSet k a c) j = if j = k then some a else cacheGet c j := by
  by_cases hjk : j = k
  · subst hjk
    simp [cacheGet, cacheSet]
  · have h2 : (k == j) = false := by simp; omega
    simp only [cacheGet, cacheSet, List.find?_cons, h2, if_neg hjk]
    rw [find_key_filter_ne c j k hjk]

theorem cacheGet_applyResultItem_isSome (dm : DM) (item : SynthResult) (j : Nat)
    (h : (cacheGet dm.audioCache j).isSome = true) :
    (cacheGet (applyResultItem dm item).audioCache j).isSome = true := by
  simp only [applyResultItem, cacheGet_cacheSet]
  by_cases hj : j = item.id
  · simp [hj]
  · simpa [hj] using h

theorem cacheGet_foldl_apply_isSome (results : List SynthResult) :
    ∀ (dm : DM) (j : Nat), (cacheGet dm.audioCache j).isSome = true →
      (cacheGet (results.foldl applyResultItem dm).audioCache j).isSome = true := by
  induction results with
  | nil => intro dm j h; simpa using h
  | cons r results ih =>
      intro dm j h
      simpa using ih (applyResultItem dm r) j (cacheGet_applyResultItem_isSome dm r j h)

theorem cacheGet_sendBatch_isSome (dm : DM) (response : Option (List SynthResult))
    (j : Nat) (h : (cacheGet dm.audioCache j).isSome = true) :
    (cacheGet (sendBatchToServer dm response).audioCache j).isSome = true := by
  cases response with
  | none => simpa [sendBatchToServer] using h
  | some results =>
      simpa [sendBatchToServer] using cacheGet_foldl_apply_isSome results dm j h

theorem findIndexAux_cons_true (p : Subtitle → Bool) (s : Subtitle)
    (rest : List Subtitle) (i : Nat) (h : p s = true) :
    findIndexAux p (s :: rest) i = some i := by
  simp [findIndexAux, h]

theorem bufferBatchGo_not_processed (processed : List Nat) (rest : List Subtitle) :
    ∀ (i room : Nat) (j : Nat) (s : Subtitle),
      (j, s) ∈ (bufferBatchGo processed i rest room).1 → j ∉ processed := by
  induction rest with
  | nil => intro i room j s h; simp [bufferBatchGo] at h
  | cons s0 rest ih =>
      intro i room j s h
      cases room with
      | zero => simp [bufferBatchGo] at h
      | succ room' =>
          simp only [bufferBatchGo] at h
          by_cases hi : i ∈ processed
          · rw [if_pos hi] at h
            exact ih (i + 1) (room' + 1) j s h
          · rw [if_neg hi] at h
            simp only [List.mem_cons] at h
            rcases h with heq | h
            · injection heq with h1 h2
              subst h1
              exact hi
            · exact ih (i + 1) room' j s h

theorem bufferUntilSafeGo_not_processed (processed : List Nat) (rest : List Subtitle) :
    ∀ (i : Nat) (dur : ℚ) (room : Nat) (j : Nat) (s : Subtitle),
      (j, s) ∈ (bufferUntilSafeGo processed i rest dur room).1 → j ∉ processed := by
  induction rest with
  | nil => intro i dur room j s h; simp [bufferUntilSafeGo] at h
  | cons s0 rest ih =>
      intro i dur room j s h
      simp only [bufferUntilSafeGo] at h
      by_cases hc : dur < 30 ∧ 0 < room
      · rw [if_pos hc] at h
        by_cases hi : i ∈ processed
        · rw [if_pos hi] at h
          exact ih (i + 1) dur room j s h
        · rw [if_neg hi] at h
          simp only [List.mem_cons] at h
          rcases h with heq | h
          · injection heq with h1 h2
            subst h1
            exact hi
          · exact ih (i + 1) (dur + (s0.endSec - s0.start)) (room - 1) j s h
      · rw [if_neg hc] at h
        simp at h

/-! ### Claim theorems -/

/-- C4: Idempotence of synthesis requests.  An id already in
`processedIds` is never included in a batch assembled by either
batch-assembly loop — `bufferBatchGo` (the initial pre-buffer loop and
the background timer, via `bufferBatch`) and `bufferUntilSafeGo` (the
low-water top-up and the seek gap-fill, via `bufferUntilSafe`) — so a
second request for an already-processed id never reaches the network:
the request body is exactly the assembled batch. -/
theorem c4_no_duplicate_batch_ids
    (processed : List Nat) (subs : List Subtitle) (i room : Nat) (dur : ℚ)
    (j : Nat) (hj : j ∈ processed) :
    (∀ s : Subtitle, (j, s) ∉ (bufferBatchGo processed i subs room).1) ∧
    (∀ s : Subtitle, (j, s) ∉ (bufferUntilSafeGo processed i subs dur room).1) := by
  constructor
  · intro s hmem
    exact bufferBatchGo_not_processed processed subs i room j s hmem hj
  · intro s hmem
    exact bufferUntilSafeGo_not_processed processed subs i dur room j s hmem hj

theorem c4_no_duplicate_batch_ids_witness :
    (0, dfltSub) ∉ (bufferBatchGo [0] 0 [⟨0, 1, "a"⟩, ⟨1, 2, "b"⟩] 10).1 ∧
    (0, dfltSub) ∉ (bufferUntilSafeGo [0] 0 [⟨0, 1, "a"⟩, ⟨1, 2, "b"⟩] 0 10).1 := by
  have h := c4_no_duplicate_batch_ids [0] [⟨0, 1, "a"⟩, ⟨1, 2, "b"⟩] 0 10 0 0
    (by simp)
  exact ⟨h.1 dfltSub, h.2 dfltSub⟩

/-- C5: Cache validity across resets and seeks.  `resetForNewVideo`
empties the cache (and the queue and `processedIds`); the synchronous
seek handler leaves the cache identical, so every previously cached
clip is still retrievable by its id; and the asynchronous gap-fill the
seek delegates to `bufferUntilSafe` only ever adds or overwrites cache
bindings, so retrievability also survives it. -/
theorem c5_cache_validity (dm : DM) (t : ℚ) (startIndex : Nat)
    (response : Option (List SynthResult)) (j : Nat) :
    (resetForNewVideo dm).audioCache = [] ∧
    (resetForNewVideo dm).audioQueue = [] ∧
    (resetForNewVideo dm).processedIds = [] ∧
    (onSeek dm t).audioCache = dm.audioCache ∧
    cacheGet (onSeek dm t).audioCache j = cacheGet dm.audioCache j ∧
    ((cacheGet dm.audioCache j).isSome = true →
      (cacheGet (bufferUntilSafe dm startIndex response).1.audioCache j).isSome = true) := by
  have hseek : (onSeek dm t).audioCache = dm.audioCache := by
    simp only [onSeek]
    cases findNewIndex dm.subtitles t <;> simp
  refine ⟨rfl, rfl, rfl, hseek, by rw [hseek], ?_⟩
  intro hs
  simp only [bufferUntilSafe]
  split
  · simpa using hs
  · split
    · simpa using hs
    · simpa using cacheGet_sendBatch_isSome dm response j hs

theorem c5_cache_validity_witness :
    (cacheGet [(0, (⟨0, 0, 2⟩ : AudioData))] 0).isSome = true ∧
    (cacheGet (bufferUntilSafe
        { audioQueue := [], subtitles := [⟨0, 2, "a"⟩], isBuffering := true,
          currentPlaying := false, processedIds := [0], nextFetchIndex := 1,
          audioCache := [(0, ⟨0, 0, 2⟩)], isDubbing := true, volume := 1,
          currentVideoId := some "vid" } 0 none).1.audioCache 0).isSome = true := by
  refine ⟨by simp [cacheGet], ?_⟩
  exact (c5_cache_validity
    { audioQueue := [], subtitles := [⟨0, 2, "a"⟩], isBuffering := true,
      currentPlaying := false, processedIds := [0], nextFetchIndex := 1,
      audioCache := [(0, ⟨0, 0, 2⟩)], isDubbing := true, volume := 1,
      currentVideoId := some "vid" } 0 0 none 0).2.2.2.2.2 (by simp [cacheGet])

/-- Scenario A clips: synthesized clips for the subtitle slots
`[0,2) / [2,5) / [5,9)` of the spec's Scenario A. -/
def clipA : AudioData := ⟨0, 0, 2⟩

/-- Scenario A second clip (slot `[2,5)`). -/
def clipB : AudioData := ⟨1, 2, 5⟩

/-- Scenario A third clip (slot `[5,9)`). -/
def clipC : AudioData := ⟨2, 5, 9⟩

/-- Scenario A state at the first clip's slot start: all three clips
synthesized and queued, nothing sounding. -/
def dmScenA : DM :=
  { audioQueue := [clipA, clipB, clipC]
    subtitles := [⟨0, 2, "a"⟩, ⟨2, 5, "b"⟩, ⟨5, 9, "c"⟩]
    isBuffering := false
    currentPlaying := false
    processedIds := [0, 1, 2]
    nextFetchIndex := 3
    audioCache := [(0, clipA), (1, clipB), (2, clipC)]
    isDubbing := true
    volume := 1
    currentVideoId := some "vid" }

/-- Scenario A state at the second clip's slot start (the first clip
has been consumed and has stopped sounding). -/
def dmScenB : DM := { dmScenA with audioQueue := [clipB, clipC] }

/-- Scenario A state at the third clip's slot start. -/
def dmScenC : DM := { dmScenA with audioQueue := [clipC] }

/-- C7: Playback-rate computation.  In general the rate applied by
`playAudioWithTiming`'s metadata callback is `min(d / t, 2.0)` when the
intrinsic duration `d` exceeds the window `t` and `t` exceeds the 0.3 s
threshold, and 1 otherwise.  In Scenario A, each tick at a slot start
hands the selector's head clip to the controller with windows 2 s, 3 s
and 4 s, and the synthesized durations 3 s / 2 s / 5 s yield rates
1.5x / 1x / 1.25x. -/
theorem c7_playback_rate :
    (∀ d t : ℚ, t < d → 3/10 < t → computePlaybackRate d t = min (d / t) 2) ∧
    (∀ d t : ℚ, ¬(t < d ∧ 3/10 < t) → computePlaybackRate d t = 1) ∧
    ((playMatchingAudio dmScenA 0).2 = .play clipA 2 ∧ computePlaybackRate 3 2 = 3/2) ∧
    ((playMatchingAudio dmScenB 2).2 = .play clipB 3 ∧ computePlaybackRate 2 3 = 1) ∧
    ((playMatchingAudio dmScenC 5).2 = .play clipC 4 ∧ computePlaybackRate 5 4 = 5/4) := by
  refine ⟨?_, ?_, ⟨?_, ?_⟩, ⟨?_, ?_⟩, ⟨?_, ?_⟩⟩
  · intro d t h1 h2
    simp [computePlaybackRate, h1, h2]
  · intro d t h
    simp only [computePlaybackRate, if_neg h]
  · norm_num [playMatchingAudio, dmScenA, sortById, sortBy, insertBy, clipA, clipB, clipC]
  · norm_num [computePlaybackRate]
  · norm_num [playMatchingAudio, dmScenB, dmScenA, sortById, sortBy, insertBy,
      clipA, clipB, clipC]
  · norm_num [computePlaybackRate]
  · norm_num [playMatchingAudio, dmScenC, dmScenA, sortById, sortBy, insertBy,
      clipA, clipB, clipC]
  · norm_num [computePlaybackRate]

theorem c7_playback_rate_witness :
    computePlaybackRate 3 2 = min ((3 : ℚ) / 2) 2 ∧ computePlaybackRate 2 3 = 1 := by
  constructor
  · exact c7_playback_rate.1 3 2 (by norm_num) (by norm_num)
  · exact c7_playback_rate.2.1 2 3 (by norm_num)

/-- C3: Seek target selection.  Over a non-empty subtitle list with
positive-length segments and nondecreasing segment ends, the target
index computed by `onSeek` is the first index whose `end` exceeds the
seek time `t` (in particular its predecessor's `end`, if any, is at
most `t`); a `t` before the first segment's start selects index 0; and
a `t` at or past the last segment's end makes `onSeek` return without
touching the queue or the fetch cursor. -/
theorem c3_seek_target_selection (subs : List Subtitle) (t : ℚ)
    (hne : subs ≠ [])
    (hse : ∀ s ∈ subs, s.start < s.endSec)
    (hmono : ∀ i j : Nat, i ≤ j → j < subs.length →
      (subs.getD i dfltSub).endSec ≤ (subs.getD j dfltSub).endSec) :
    (∀ n : Nat, findNewIndex subs t = some n →
      n < subs.length ∧ t < (subs.getD n dfltSub).endSec ∧
        (n = 0 ∨ (subs.getD (n - 1) dfltSub).endSec ≤ t)) ∧
    (t < (subs.getD 0 dfltSub).start → findNewIndex subs t = some 0) ∧
    ((subs.getD (subs.length - 1) dfltSub).endSec ≤ t →
      findNewIndex subs t = none ∧
      ∀ dm : DM, dm.subtitles = subs →
        (onSeek dm t).audioQueue = dm.audioQueue ∧
        (onSeek dm t).nextFetchIndex = dm.nextFetchIndex) := by
  cases subs with
  | nil => exact absurd rfl hne
  | cons s0 rest =>
  have hlen : 0 < (s0 :: rest).length := by simp
  refine ⟨?_, ?_, ?_⟩
  · intro n hn
    unfold findNewIndex at hn
    cases hfi : findIndexAux (fun s => decide (t < s.endSec)) (s0 :: rest) 0 with
    | some i =>
        rw [hfi] at hn
        injection hn with hn
        subst hn
        obtain ⟨-, h2, h3, h4⟩ := findIndexAux_some_spec _ (s0 :: rest) 0 i hfi
        simp only [Nat.sub_zero] at h2 h3 h4
        refine ⟨h2, by simpa using h3, ?_⟩
        rcases Nat.eq_zero_or_pos i with h | h
        · exact Or.inl h
        · right
          have h5 : ¬ t < ((s0 :: rest).getD (i - 1) dfltSub).endSec := by
            simpa using h4 (i - 1) (by omega)
          exact not_lt.mp h5
    | none =>
        rw [hfi] at hn
        by_cases hc : t < (match (s0 :: rest : List Subtitle) with
            | [] => (0 : ℚ) | s :: _ => s.start)
        · rw [if_pos hc] at hn
          injection hn with hn
          subst hn
          refine ⟨hlen, ?_, Or.inl rfl⟩
          simp only [List.getD_cons_zero]
          exact lt_trans (by simpa using hc) (hse s0 (by simp))
        · rw [if_neg hc] at hn
          exact absurd hn (by simp)
  · intro h
    have hp : (fun s => decide (t < s.endSec)) s0 = true := by
      simp only [List.getD_cons_zero] at h
      simp only [decide_eq_true_eq]
      exact lt_trans h (hse s0 (by simp))
    unfold findNewIndex
    rw [findIndexAux_cons_true _ _ _ _ hp]
  · intro hlast
    have hk : ∀ k, k < (s0 :: rest).length →
        ((s0 :: rest).getD k dfltSub).endSec ≤ t := by
      intro k hkl
      exact le_trans (hmono k ((s0 :: rest).length - 1) (by omega) (by omega)) hlast
    have hallm : ∀ s ∈ (s0 :: rest), (fun s => decide (t < s.endSec)) s = false := by
      rw [List.forall_mem_iff_getElem]
      intro i hi
      have hle := hk i hi
      rw [List.getD_eq_getElem _ _ hi] at hle
      simp only [decide_eq_false_iff_not]
      exact not_lt.mpr hle
    have hnone := findIndexAux_none_of_all _ (s0 :: rest) 0 hallm
    have hcond : ¬ t < (match (s0 :: rest : List Subtitle) with
        | [] => (0 : ℚ) | s :: _ => s.start) := by
      have h0 : s0.endSec ≤ t := by simpa using hk 0 (by simp)
      simp only [not_lt]
      exact le_trans (le_of_lt (hse s0 (by simp))) h0
    have hni : findNewIndex (s0 :: rest) t = none := by
      unfold findNewIndex
      rw [hnone, if_neg hcond]
    refine ⟨hni, ?_⟩
    intro dm hdm
    constructor <;> simp [onSeek, hdm, hni]

theorem c3_seek_target_selection_witness :
    findNewIndex [⟨0, 2, "a"⟩, ⟨2, 5, "b"⟩] (-1) = some 0 := by
  refine (c3_seek_target_selection [⟨0, 2, "a"⟩, ⟨2, 5, "b"⟩] (-1)
    (by simp) ?_ ?_).2.1 ?_
  · intro s hs
    simp only [List.mem_cons, List.mem_singleton, List.not_mem_nil, or_false] at hs
    rcases hs with rfl | rfl <;> norm_num
  · intro i j hij hj
    simp only [List.length_cons, List.length_nil] at hj
    interval_cases j <;> interval_cases i <;>
      norm_num [List.getD_cons_zero, List.getD_cons_succ]
  · simp only [List.getD_cons_zero]
    norm_num

/-- State for the catch-up-policy analysis: the head clip's slot
`[0, 2)` has fully elapsed at position 5 and nothing is sounding. -/
def dmLate : DM :=
  { audioQueue := [⟨0, 0, 2⟩]
    subtitles := [⟨0, 2, "a"⟩]
    isBuffering := false
    currentPlaying := false
    processedIds := [0]
    nextFetchIndex := 1
    audioCache := [(0, ⟨0, 0, 2⟩)]
    isDubbing := true
    volume := 1
    currentVideoId := some "vid" }

/-- C1 counterexample: at position 5 the head clip's `slotEnd` (2) has
long passed and the clip has not been played, yet the current Playback
Selector (`playMatchingAudio`) pops it and hands it to the Audio
Controller with the floored window 0.5 s instead of removing it without
playing — a clip IS handed to the controller after its slot has fully
elapsed. -/
theorem c1_catchup_counterexample :
    dmLate.currentPlaying = false ∧
    dmLate.audioQueue = [⟨0, 0, 2⟩] ∧
    (⟨0, 0, 2⟩ : AudioData).endSec < 5 ∧
    (playMatchingAudio dmLate 5).2 = .play ⟨0, 0, 2⟩ (1/2) := by
  refine ⟨rfl, rfl, by norm_num, ?_⟩
  norm_num [playMatchingAudio, dmLate, sortById, sortBy, insertBy]

/-- C1 amended: the drop-without-playing catch-up policy holds in the
first iteration's `onTimeUpdate` — a head clip whose `slotEnd` is
strictly below the play position is removed from the queue without
being played — whereas the current `playMatchingAudio` instead hands
such a late head clip to the Audio Controller with the window
`max(slotEnd - position, 0.5)`. -/
theorem c1_catchup_amended :
    (∀ (next : AudioData) (rest : List AudioData) (t : ℚ),
      next.endSec < t →
      onTimeUpdateSelect (next :: rest) t = (rest, .skip next)) ∧
    (∀ (dm : DM) (t : ℚ) (next : AudioData) (rest : List AudioData),
      dm.currentPlaying = false →
      sortById dm.audioQueue = next :: rest →
      next.start < next.endSec →
      next.endSec < t →
      (playMatchingAudio dm t).2 = .play next (max (next.endSec - t) (1/2))) := by
  constructor
  · intro next rest t h
    have h1 : ¬ (next.start - 2/10 ≤ t ∧ t < next.endSec) := by
      rintro ⟨-, h2⟩
      exact absurd h (not_lt.mpr (le_of_lt h2))
    simp only [onTimeUpdateSelect, if_neg h1, if_pos h]
  · intro dm t next rest hcp hsort hlt hend
    have hdue : next.start - 3/10 ≤ t := by linarith
    simp only [playMatchingAudio, hcp, Bool.false_eq_true, if_false, hsort,
      if_pos hdue]

theorem c1_catchup_amended_witness :
    onTimeUpdateSelect [⟨0, 0, 2⟩] 5 = ([], .skip ⟨0, 0, 2⟩) ∧
    (playMatchingAudio dmLate 5).2 = .play ⟨0, 0, 2⟩ (max ((2 : ℚ) - 5) (1/2)) := by
  constructor
  · exact c1_catchup_amended.1 ⟨0, 0, 2⟩ [] 5 (by norm_num)
  · exact c1_catchup_amended.2 dmLate 5 ⟨0, 0, 2⟩ []
      rfl (by norm_num [dmLate, sortById, sortBy, insertBy]) (by norm_num) (by norm_num)

/-- A mid-session state for video "oldVideo": two segments processed
and cached, one still queued. -/
def dmOld : DM :=
  { audioQueue := [⟨1, 2, 5⟩]
    subtitles := [⟨0, 2, "a"⟩, ⟨2, 5, "b"⟩]
    isBuffering := false
    currentPlaying := true
    processedIds := [0, 1]
    nextFetchIndex := 2
    audioCache := [(0, ⟨0, 0, 2⟩), (1, ⟨1, 2, 5⟩)]
    isDubbing := true
    volume := 1
    currentVideoId := some "oldVideo" }

/-- C2: the staleness check the claim describes does not exist.  After
`resetForNewVideo` has invalidated the session (cache, queue and
`processedIds` all cleared), a synthesis response issued for the old
session is still applied in full by `sendBatchToServer`'s response
handler: the stale clip enters the queue and the cache and its id
enters `processedIds`, because the handler checks neither
`currentVideoId` nor any session generation before applying
`data.results`. -/
theorem c2_stale_response_applied :
    (resetForNewVideo dmOld).processedIds = [] ∧
    (resetForNewVideo dmOld).audioQueue = [] ∧
    (resetForNewVideo dmOld).audioCache = [] ∧
    (sendBatchToServer (resetForNewVideo dmOld) (some [⟨2, 6, 8⟩])).processedIds = [2] ∧
    (sendBatchToServer (resetForNewVideo dmOld) (some [⟨2, 6, 8⟩])).audioQueue =
      [⟨2, 6, 8⟩] ∧
    cacheGet (sendBatchToServer (resetForNewVideo dmOld) (some [⟨2, 6, 8⟩])).audioCache 2 =
      some ⟨2, 6, 8⟩ := by
  refine ⟨rfl, rfl, rfl, ?_, ?_, ?_⟩ <;>
    norm_num [sendBatchToServer, resetForNewVideo, dmOld, applyResultItem,
      insertId, cacheSet, cacheGet, sortByStart, sortBy, insertBy]

/-- C6 counterexample: a state with two outstanding synthesis batches
is reachable.  The pre-buffer loop of `startProcess` issues a batch
without checking or setting the busy flag; while that request is in
flight, a seek-triggered `bufferUntilSafe` finds `isBuffering` still
false and issues a second one. -/
theorem c6_single_flight_counterexample :
    SchedReachable ⟨true, true, true⟩ ∧ outstanding ⟨true, true, true⟩ = 2 := by
  constructor
  · have h1 : SchedStep ⟨false, false, false⟩ ⟨false, true, false⟩ :=
      SchedStep.preIssue ⟨false, false, false⟩ rfl
    have h2 : SchedStep ⟨false, true, false⟩ ⟨true, true, true⟩ :=
      SchedStep.guardIssue ⟨false, true, false⟩ rfl rfl
    exact SchedReachable.step (SchedReachable.step SchedReachable.init h1) h2
  · rfl

/-- C6 amended: the busy-flag guard does protect every path that goes
through `bufferUntilSafe` (the low-water top-up and the seek gap-fill)
and the background timer: with `isBuffering` set, both are no-ops that
issue no request.  The initial pre-buffer loop, however, calls
`bufferBatch` directly without checking or setting the flag, so a batch
it has in flight can coexist with one issued by `bufferUntilSafe` (the
counterexample's interleaving). -/
theorem c6_busy_flag_guards (dm : DM) (startIndex : Nat)
    (response : Option (List SynthResult)) (hb : dm.isBuffering = true) :
    bufferUntilSafe dm startIndex response = (dm, false) ∧
    backgroundBufferTick dm response = (dm, false) := by
  constructor
  · simp only [bufferUntilSafe, hb, true_or, if_true]
  · simp only [backgroundBufferTick, hb]
    split
    · rfl
    · rw [if_neg (by simp)]

theorem c6_busy_flag_guards_witness :
    bufferUntilSafe { dmOld with isBuffering := true } 0 none =
      ({ dmOld with isBuffering := true }, false) ∧
    backgroundBufferTick { dmOld with isBuffering := true } none =
      ({ dmOld with isBuffering := true }, false) :=
  c6_busy_flag_guards { dmOld with isBuffering := true } 0 none rfl

theorem findNewIndex_some_lt (subs : List Subtitle) (t : ℚ) (n : Nat)
    (hse : ∀ s ∈ subs, s.start < s.endSec)
    (hlen : 0 < subs.length)
    (hfind : findNewIndex subs t = some n) :
    t < (subs.getD n dfltSub).endSec := by
  unfold findNewIndex at hfind
  cases hfi : findIndexAux (fun s => decide (t < s.endSec)) subs 0 with
  | some i =>
      rw [hfi] at hfind
      injection hfind with h
      subst h
      obtain ⟨-, -, h3, -⟩ := findIndexAux_some_spec _ subs 0 i hfi
      simpa using h3
  | none =>
      rw [hfi] at hfind
      simp only at hfind
      split at hfind
      · rename_i hc
        injection hfind with h
        subst h
        cases subs with
        | nil => simp at hlen
        | cons s0 rest =>
            simp only [List.getD_cons_zero]
            simp only at hc
            exact lt_trans hc (hse s0 (by simp))
      · exact absurd hfind (by simp)

/-- C8 counterexample: a seek to `t = 5`, at or past the last
segment's end (2), makes `onSeek` return through its early-exit branch
without rebuilding, so the queue still holds a clip whose `slotEnd` (2)
is below the seek target — the claimed invariant fails in exactly the
edge case it includes. -/
theorem c8_post_seek_counterexample :
    (onSeek dmLate 5).audioQueue = [⟨0, 0, 2⟩] ∧
    ¬ ((5 : ℚ) ≤ (⟨0, 0, 2⟩ : AudioData).endSec) := by
  constructor
  · norm_num [onSeek, dmLate, findNewIndex, findIndexAux]
  · norm_num

/-- C8 amended: when the seek does select a target index (the seek
time is before the last segment's end, or before the first segment's
start), the rebuilt queue contains only clips whose `slotEnd` is at
least the seek time — given that cached clips carry their segment's
`end` and segment ends are nondecreasing.  When no target is selected
(seek at or past the last segment's end) the handler returns early and
the untouched queue may retain clips with `slotEnd` below the seek
time, as the counterexample shows. -/
theorem c8_post_seek_queue (dm : DM) (t : ℚ) (n : Nat)
    (hse : ∀ s ∈ dm.subtitles, s.start < s.endSec)
    (hmono : ∀ i j : Nat, i ≤ j → j < dm.subtitles.length →
      (dm.subtitles.getD i dfltSub).endSec ≤ (dm.subtitles.getD j dfltSub).endSec)
    (hcache : ∀ j, j < dm.subtitles.length → ∀ a, cacheGet dm.audioCache j = some a →
      a.endSec = (dm.subtitles.getD j dfltSub).endSec)
    (hfind : findNewIndex dm.subtitles t = some n) :
    ∀ a ∈ (onSeek dm t).audioQueue, t ≤ a.endSec := by
  intro a ha
  simp only [onSeek, hfind] at ha
  have ha' : a ∈ (idxRange n (min (n + 20) dm.subtitles.length - n)).filterMap
      (fun j => cacheGet dm.audioCache j) := (mem_sortBy _ _ _).mp ha
  obtain ⟨j, hjmem, hjget⟩ := List.mem_filterMap.mp ha'
  obtain ⟨hnj, hjup⟩ := mem_idxRange j n _ hjmem
  have hminle := Nat.min_le_right (n + 20) dm.subtitles.length
  have hjlen : j < dm.subtitles.length := by omega
  have hlen : 0 < dm.subtitles.length := by omega
  have hend := hcache j hjlen a hjget
  have hnlt := findNewIndex_some_lt dm.subtitles t n hse hlen hfind
  have hstep := hmono n j hnj hjlen
  rw [hend]
  exact le_of_lt (lt_of_lt_of_le hnlt hstep)

theorem c8_post_seek_queue_witness :
    (⟨1, 2, 5⟩ : AudioData) ∈ (onSeek dmOld 3).audioQueue ∧
    (3 : ℚ) ≤ (⟨1, 2, 5⟩ : AudioData).endSec := by
  have hmem : (⟨1, 2, 5⟩ : AudioData) ∈ (onSeek dmOld 3).audioQueue := by
    norm_num [onSeek, dmOld, findNewIndex, findIndexAux, idxRange, cacheGet,
      sortByStart, sortBy, insertBy]
  refine ⟨hmem, ?_⟩
  refine c8_post_seek_queue dmOld 3 1 ?_ ?_ ?_ ?_ ⟨1, 2, 5⟩ hmem
  · intro s hs
    simp only [dmOld, List.mem_cons, List.mem_singleton, List.not_mem_nil, or_false] at hs
    rcases hs with rfl | rfl <;> norm_num
  · intro i j hij hj
    simp only [dmOld, List.length_cons, List.length_nil] at hj
    interval_cases j <;> interval_cases i <;>
      norm_num [dmOld, List.getD_cons_zero, List.getD_cons_succ]
  · intro j hj a hget
    simp only [dmOld, List.length_cons, List.length_nil] at hj
    interval_cases j <;>
      simp only [dmOld, cacheGet, List.find?] at hget <;>
      simp at hget <;>
      simp [← hget, dmOld, dfltSub]
  · norm_num [dmOld, findNewIndex, findIndexAux]

/-- A fresh session: three subtitles loaded, nothing processed yet. -/
def dmFresh : DM :=
  { audioQueue := []
    subtitles := [⟨0, 1, "a"⟩, ⟨1, 2, "b"⟩, ⟨2, 3, "c"⟩]
    isBuffering := false
    currentPlaying := false
    processedIds := []
    nextFetchIndex := 0
    audioCache := []
    isDubbing := true
    volume := 1
    currentVideoId := some "vid" }

/-- C9 counterexample: a batch for ids 0, 1, 2 is issued and the
synthesis call fails.  No id is marked processed (the batch is indeed
dropped), but `nextFetchIndex` still advances to 3, so the next
background-timer tick calls `bufferBatch(3, 10)` which issues no
request at all — the scheduler does not retry the failed segments on
its next tick; they are skipped until some later seek moves the cursor
back. -/
theorem c9_no_retry_counterexample :
    (bufferBatch dmFresh 0 10 none).2 = true ∧
    (bufferBatch dmFresh 0 10 none).1.processedIds = [] ∧
    (bufferBatch dmFresh 0 10 none).1.nextFetchIndex = 3 ∧
    backgroundBufferTick (bufferBatch dmFresh 0 10 none).1 none =
      ((bufferBatch dmFresh 0 10 none).1, false) := by
  refine ⟨?_, ?_, ?_, ?_⟩ <;>
    norm_num [bufferBatch, bufferBatchGo, backgroundBufferTick,
      sendBatchToServer, dmFresh]

/-- C9 amended: a failed synthesis call is logged and swallowed, and
the batch is dropped without mutating the queue, the cache or
`processedIds`; however `bufferBatch` still advances `nextFetchIndex`
past the batch it assembled, so the subsequent fetch paths resume
after the failed segments instead of retrying them — a failed batch's
ids are permanently skipped unless a seek later resets the cursor
behind them. -/
theorem c9_failed_batch_dropped (dm : DM) (startIndex count : Nat) :
    sendBatchToServer dm none = dm ∧
    (bufferBatch dm startIndex count none).1.audioQueue = dm.audioQueue ∧
    (bufferBatch dm startIndex count none).1.audioCache = dm.audioCache ∧
    (bufferBatch dm startIndex count none).1.processedIds = dm.processedIds ∧
    (startIndex < dm.subtitles.length →
      (bufferBatchGo dm.processedIds startIndex
        (dm.subtitles.drop startIndex) count).1.isEmpty = false →
      (bufferBatch dm startIndex count none).1.nextFetchIndex =
        (bufferBatchGo dm.processedIds startIndex
          (dm.subtitles.drop startIndex) count).2) := by
  have hsend : sendBatchToServer dm none = dm := rfl
  refine ⟨hsend, ?_, ?_, ?_, ?_⟩
  · simp only [bufferBatch, hsend]
    split
    · rfl
    · split <;> rfl
  · simp only [bufferBatch, hsend]
    split
    · rfl
    · split <;> rfl
  · simp only [bufferBatch, hsend]
    split
    · rfl
    · split <;> rfl
  · intro h1 h2
    simp only [bufferBatch, hsend]
    rw [if_neg (by omega)]
    rw [if_neg (by simp [h2])]

theorem c9_failed_batch_dropped_witness :
    (bufferBatch dmFresh 0 10 none).1.processedIds = dmFresh.processedIds ∧
    (bufferBatch dmFresh 0 10 none).1.nextFetchIndex =
      (bufferBatchGo dmFresh.processedIds 0 (dmFresh.subtitles.drop 0) 10).2 := by
  have h := c9_failed_batch_dropped dmFresh 0 10
  refine ⟨h.2.2.2.1, h.2.2.2.2 ?_ ?_⟩
  · norm_num [dmFresh]
  · norm_num [dmFresh, bufferBatchGo]

/-- C10 counterexample: a requested dub volume of exactly 0 at
`start_dubbing` is falsy in JS, so `request.volume || 1.0` replaces it
with 1.0 and the applied gain is 1, not `min(0, 1.0) = 0` — the
claimed formula fails at `v = 0`. -/
theorem c10_gain_counterexample :
    clipGain (startDubbingVolume 0) = 1 ∧ min (0 : ℚ) 1 = 0 ∧ (1 : ℚ) ≠ 0 := by
  refine ⟨?_, ?_, ?_⟩
  · norm_num [clipGain, startDubbingVolume]
  · exact min_eq_left (by norm_num)
  · norm_num

/-- C10 amended: the gain applied to a sounding clip is `min(v, 1.0)`
for every volume `v` reaching the manager's `volume` field — in
particular every `v ≥ 1` yields gain exactly 1 and every `v ≤ 1`
passes through unclamped; a nonzero `v` requested at `start_dubbing`
also yields `min(v, 1.0)`; and every popup-slider position from 100%
up to the 200% maximum yields exactly gain 1.  Only `v = 0` at
`start_dubbing` escapes the formula (coerced to the default 1 by the
JS `||`), as the counterexample shows. -/
theorem c10_gain_clamp :
    (∀ v : ℚ, 1 ≤ v → clipGain v = 1) ∧
    (∀ v : ℚ, v ≤ 1 → clipGain v = v) ∧
    (∀ v : ℚ, v ≠ 0 → clipGain (startDubbingVolume v) = min v 1) ∧
    (∀ p : ℕ, 100 ≤ p → clipGain (popupSliderVolume p) = 1) := by
  refine ⟨?_, ?_, ?_, ?_⟩
  · intro v h
    simpa [clipGain] using min_eq_right h
  · intro v h
    simpa [clipGain] using min_eq_left h
  · intro v h
    simp [clipGain, startDubbingVolume, h]
  · intro p hp
    have h1 : (1 : ℚ) ≤ (p : ℚ) / 100 := by
      rw [le_div_iff₀ (by norm_num : (0 : ℚ) < 100)]
      norm_num
      exact_mod_cast hp
    simpa [clipGain, popupSliderVolume] using min_eq_right h1

theorem c10_gain_clamp_witness :
    clipGain (popupSliderVolume 200) = 1 ∧
    clipGain (startDubbingVolume (1/2)) = min (1/2 : ℚ) 1 := by
  constructor
  · exact c10_gain_clamp.2.2.2 200 (by norm_num)
  · exact c10_gain_clamp.2.2.1 (1/2) (by norm_num)
